import Mathlib

/-!
Verification of the `mpf` process-picker against its specification.

The definitions below are a shallow embedding of `src/main.rs`,
`src/linux.rs` and `src/macos.rs`:

* Rust `String` / `&str` become Lean `String`; `Vec<T>` becomes `List T`;
  `i32` becomes `Int` (values produced by the program stay far from the
  32-bit bounds, and `parseI32` checks the i32 range explicitly).
* A Rust `panic!` / `expect` / failed `assert_eq!` is modelled by
  `Except.error` carrying a `PanicKind`.
* The OS boundary (procfs walk, `listpids`, `KERN_PROCARGS2` parsing) is
  modelled by passing the OS answer in as an explicit argument.
-/

set_option autoImplicit false

deriving instance DecidableEq for Except

namespace Mpf

/-- Modelled from the spec: `ProcessRecord` (the `types.rs` module holding
`CommonProcInfo` is not among the sources; its three fields are fully
determined by their uses in `main.rs`, `linux.rs` and `macos.rs`):
`pid` a signed integer, `program` the short executable name, `cmdline`
the argument vector. -/
structure CommonProcInfo where
  pid : Int
  program : String
  cmdline : List String
  deriving DecidableEq, Repr

/-- Rust `str::split(c)` semantics on a list of characters: split at every
occurrence of `c`; `n` separators yield `n + 1` fields, empty fields
included. -/
def splitCharList (c : Char) : List Char → List (List Char)
  | [] => [[]]
  | x :: xs =>
    if x = c then [] :: splitCharList c xs
    else
      match splitCharList c xs with
      | [] => [[x]]
      | l :: ls => (x :: l) :: ls

/-- `s.split(c).collect::<Vec<_>>()` from Rust, on Lean strings. -/
def splitChar (c : Char) (s : String) : List String :=
  (splitCharList c s.toList).map (fun l => String.mk l)

/-- Rust `str::starts_with` (byte-prefix test, which on valid UTF-8 agrees
with the character-list prefix test). -/
def strStarts (s pre : String) : Bool :=
  pre.toList.isPrefixOf s.toList

/-- `get_cmd_line_option` from `main.rs` (lines 89-108): scan the tokens
left to right; an exact match returns the following token when there is
one and `none` otherwise (scanning stops either way); a token that starts
with the flag is split at every `'='` and matches only when that yields
exactly two parts whose first equals the flag; otherwise scanning
continues. -/
def get_cmd_line_option (option : String) : List String → Option String
  | [] => none
  | opt :: rest =>
    if opt = option then
      match rest with
      | next :: _ => some next
      | [] => none
    else if strStarts opt option then
      match splitChar '=' opt with
      | [a, b] => if a = option then some b else get_cmd_line_option option rest
      | _ => get_cmd_line_option option rest
    else get_cmd_line_option option rest

example : get_cmd_line_option "--port" ["foo"] = none := by decide
example : get_cmd_line_option "--port" ["--port", "20000"] = some "20000" := by decide
example : get_cmd_line_option "--port" ["--port"] = none := by decide
example : get_cmd_line_option "--port" ["--port=20000"] = some "20000" := by decide
example : get_cmd_line_option "--port" ["--ports=20000"] = none := by decide
example : get_cmd_line_option "--replSet" ["--replSet=a=b"] = none := by decide

/-- The `MongoProcess` arg-enum of `main.rs`. -/
inductive MongoProcess
  | Legacyshell
  | Mongod
  | Mongos
  deriving DecidableEq, Repr

/-- `is_mongo_process` from `main.rs` (lines 44-59): programs not starting
with "mongo" are not of interest; exact names map to roles; any other
"mongo"-prefixed name is logged as a warning (a side effect not modelled)
and yields `none`. -/
def is_mongo_process (p : CommonProcInfo) : Option MongoProcess :=
  if !(strStarts p.program "mongo") then none
  else if p.program = "mongod" then some MongoProcess.Mongod
  else if p.program = "mongos" then some MongoProcess.Mongos
  else if p.program = "mongo" then some MongoProcess.Legacyshell
  else none

/-- The `MongoDType` arg-enum of `main.rs`. -/
inductive MongoDType
  | Standalone
  | ReplicaSet
  | Config
  | Shard
  deriving DecidableEq, Repr

/-- `MongoSServerInfo` from `main.rs`. -/
structure MongoSServerInfo where
  pid : Int
  port : Int
  deriving DecidableEq, Repr

/-- `MongoDServerInfo` from `main.rs`. -/
structure MongoDServerInfo where
  pid : Int
  port : Int
  server_type : MongoDType
  replica_set_name : Option String
  deriving DecidableEq, Repr

/-- Rust's `str::parse::<i32>()`: an optional sign, then one or more ASCII
decimal digits, rejecting anything else and any value outside the i32
range. -/
def parseI32 (s : String) : Option Int :=
  let sd : Int × List Char :=
    match s.toList with
    | '+' :: rest => (1, rest)
    | '-' :: rest => (-1, rest)
    | cs => (1, cs)
  if sd.2.isEmpty then none
  else if sd.2.all Char.isDigit then
    let n : Nat := sd.2.foldl (fun acc c => 10 * acc + (c.toNat - 48)) 0
    let v : Int := sd.1 * (n : Int)
    if -(2 : Int) ^ 31 ≤ v ∧ v ≤ 2 ^ 31 - 1 then some v else none
  else none

example : parseI32 "20000" = some 20000 := by decide
example : parseI32 "xx" = none := by decide
example : parseI32 "" = none := by decide
example : parseI32 "-5" = some (-5) := by decide

/-- A Rust panic aborting the whole invocation: a failed `assert_eq!`
precondition or the `expect("Bad port number")` on a malformed `--port`
value. -/
inductive PanicKind
  | assertFailed
  | badPort
  deriving DecidableEq, Repr

/-- The `server_type` if-chain of `get_mongod_info` (`main.rs` lines
117-129): start from Standalone, overridden by `--replSet` < `--shardsvr`
< `--configsvr` in increasing precedence. -/
def resolve_server_type (cmdline : List String) : MongoDType :=
  if (get_cmd_line_option "--configsvr" cmdline).isSome then MongoDType.Config
  else if (get_cmd_line_option "--shardsvr" cmdline).isSome then MongoDType.Shard
  else if (get_cmd_line_option "--replSet" cmdline).isSome then MongoDType.ReplicaSet
  else MongoDType.Standalone

/-- `get_mongod_info` from `main.rs` (lines 110-137). The `assert_eq!` on
entry becomes `PanicKind.assertFailed`; `port_str.map_or(20017, parse.expect)`
becomes the match on the `--port` lookup, with a parse failure becoming
`PanicKind.badPort`; `replica_set_name` is always the raw `--replSet`
lookup result. -/
def get_mongod_info (p : CommonProcInfo) : Except PanicKind MongoDServerInfo :=
  if is_mongo_process p ≠ some MongoProcess.Mongod then
    Except.error PanicKind.assertFailed
  else
    match get_cmd_line_option "--port" p.cmdline with
    | none =>
      Except.ok ⟨p.pid, 20017, resolve_server_type p.cmdline,
        get_cmd_line_option "--replSet" p.cmdline⟩
    | some s =>
      match parseI32 s with
      | none => Except.error PanicKind.badPort
      | some n =>
        Except.ok ⟨p.pid, n, resolve_server_type p.cmdline,
          get_cmd_line_option "--replSet" p.cmdline⟩

/-- `get_mongos_info` from `main.rs` (lines 139-150). -/
def get_mongos_info (p : CommonProcInfo) : Except PanicKind MongoSServerInfo :=
  if is_mongo_process p ≠ some MongoProcess.Mongos then
    Except.error PanicKind.assertFailed
  else
    match get_cmd_line_option "--port" p.cmdline with
    | none => Except.ok ⟨p.pid, 20017⟩
    | some s =>
      match parseI32 s with
      | none => Except.error PanicKind.badPort
      | some n => Except.ok ⟨p.pid, n⟩

/-- The three collections accumulated by the classification loop of
`main` (`main.rs` lines 197-222), in discovery order. -/
structure Classified where
  mongod : List MongoDServerInfo
  mongos : List MongoSServerInfo
  shells : List Int
  deriving DecidableEq, Repr

/-- The classification loop of `main` (`main.rs` lines 203-222): each
process is classified by `is_mongo_process` and appended to the matching
collection; a panic inside `get_mongod_info` / `get_mongos_info` aborts
the loop. -/
def classifyProcs : List CommonProcInfo → Except PanicKind Classified
  | [] => Except.ok ⟨[], [], []⟩
  | p :: rest =>
    match is_mongo_process p with
    | none => classifyProcs rest
    | some MongoProcess.Legacyshell =>
      match classifyProcs rest with
      | Except.error e => Except.error e
      | Except.ok c => Except.ok { c with shells := p.pid :: c.shells }
    | some MongoProcess.Mongod =>
      match get_mongod_info p with
      | Except.error e => Except.error e
      | Except.ok info =>
        match classifyProcs rest with
        | Except.error e => Except.error e
        | Except.ok c => Except.ok { c with mongod := info :: c.mongod }
    | some MongoProcess.Mongos =>
      match get_mongos_info p with
      | Except.error e => Except.error e
      | Except.ok info =>
        match classifyProcs rest with
        | Except.error e => Except.error e
        | Except.ok c => Except.ok { c with mongos := info :: c.mongos }

/-- The `Args` struct of `main.rs` (clap surface). -/
structure Args where
  process_type : Option MongoProcess
  server_type : Option MongoDType
  port : Option Int
  verbose : Bool
  deriving DecidableEq, Repr

/-- The filter chain of `main` (`main.rs` lines 238-298): `some pids` when
a filter was requested (`has_pids`), `none` when no filter was given and
the JSON summary is printed instead. -/
def runFilter (args : Args) (c : Classified) : Option (List Int) :=
  match args.port with
  | some port =>
    some (((c.mongod.filter fun d => decide (d.port = port)).map fun d => d.pid) ++
          ((c.mongos.filter fun d => decide (d.port = port)).map fun d => d.pid))
  | none =>
    match args.server_type with
    | some st =>
      some ((c.mongod.filter fun d => decide (d.server_type = st)).map fun d => d.pid)
    | none =>
      match args.process_type with
      | some MongoProcess.Legacyshell => some c.shells
      | some MongoProcess.Mongod => some (c.mongod.map fun d => d.pid)
      | some MongoProcess.Mongos => some (c.mongos.map fun d => d.pid)
      | none => none

/-- Observable outcome of one invocation of `main`. -/
inductive MainOutcome
  /-- `std::process::exit(code)` after the usage-error message. -/
  | exitWithCode (code : Nat)
  /-- `get_procs()?` propagated an enumeration failure (non-zero exit). -/
  | enumFailure
  /-- A panic (`assert_eq!` / `expect`) aborted the run (non-zero exit). -/
  | fatalPanic (e : PanicKind)
  /-- Filtered mode: the pids printed one per line, in order. -/
  | pidList (pids : List Int)
  /-- Summary mode: the `MongoPSInfo` value serialized as JSON. -/
  | summary (c : Classified)
  deriving DecidableEq, Repr

/-- `main` from `main.rs` (lines 180-315), with the OS answer of
`get_procs()` passed in explicitly: the shell+port usage check runs first
(before `get_procs`, so the outcome in that case does not depend on the
`procs` argument), then classification, then the filter chain. -/
def mainModel (args : Args) (procs : Except Unit (List CommonProcInfo)) : MainOutcome :=
  if args.process_type = some MongoProcess.Legacyshell ∧ args.port.isSome then
    MainOutcome.exitWithCode 1
  else
    match procs with
    | Except.error _ => MainOutcome.enumFailure
    | Except.ok ps =>
      match classifyProcs ps with
      | Except.error e => MainOutcome.fatalPanic e
      | Except.ok c =>
        match runFilter args c with
        | some pids => MainOutcome.pidList pids
        | none => MainOutcome.summary c

/-- One row of the procfs walk in `linux.rs`: the pid and `comm` of the
process, and the result of `prc.cmdline()` (`none` models the `Err` case
handled by `unwrap_or_default`). -/
structure LinuxRawProc where
  pid : Int
  comm : String
  cmdlineRes : Option (List String)
  deriving DecidableEq, Repr

/-- `get_procs` from `linux.rs` (lines 19-34), with the result of
`procfs::process::all_processes()` passed in: the `?` propagates an
initial-query failure; a per-process `cmdline()` failure is replaced by
the empty vector. -/
def linux_get_procs (q : Except Unit (List LinuxRawProc)) :
    Except Unit (List CommonProcInfo) :=
  match q with
  | Except.error e => Except.error e
  | Except.ok l =>
    Except.ok (l.map fun prc => ⟨prc.pid, prc.comm, prc.cmdlineRes.getD []⟩)

/-- The two fields of `macos.rs`'s `PathInfo` that `get_procs` consumes
(`exe`, `root` and `env` are computed but never read by the caller). -/
structure PathInfo where
  name : String
  cmd : List String
  deriving DecidableEq, Repr

/-- `get_procs` from `macos.rs` (lines 12-34), with the result of
`proc_pid::listpids` and the per-pid result of `get_path_info` passed in:
`if let Ok(pids)` silently turns an initial-query failure into the empty
(successful) result, and a per-pid `get_path_info` failure skips that
process. -/
def macos_get_procs (listpidsRes : Except Unit (List Int))
    (pathInfoOf : Int → Option PathInfo) : Except Unit (List CommonProcInfo) :=
  match listpidsRes with
  | Except.error _ => Except.ok []
  | Except.ok pids =>
    Except.ok (pids.filterMap fun q => (pathInfoOf q).map fun pi => ⟨q, pi.name, pi.cmd⟩)

/-! ### Helper lemmas -/

/-- On a record that classifies as `Mongod`, `get_mongod_info` is the
port match alone: the assert precondition holds, so only the `--port`
lookup decides between success and the bad-port panic. -/
lemma get_mongod_info_of_mongod (p : CommonProcInfo)
    (hm : is_mongo_process p = some MongoProcess.Mongod) :
    get_mongod_info p =
      match get_cmd_line_option "--port" p.cmdline with
      | none =>
        Except.ok ⟨p.pid, 20017, resolve_server_type p.cmdline,
          get_cmd_line_option "--replSet" p.cmdline⟩
      | some s =>
        match parseI32 s with
        | none => Except.error PanicKind.badPort
        | some n =>
          Except.ok ⟨p.pid, n, resolve_server_type p.cmdline,
            get_cmd_line_option "--replSet" p.cmdline⟩ := by
  unfold get_mongod_info
  simp [hm]

/-- Mirror image of `get_mongod_info_of_mongod` for routers. -/
lemma get_mongos_info_of_mongos (p : CommonProcInfo)
    (hm : is_mongo_process p = some MongoProcess.Mongos) :
    get_mongos_info p =
      match get_cmd_line_option "--port" p.cmdline with
      | none => Except.ok ⟨p.pid, 20017⟩
      | some s =>
        match parseI32 s with
        | none => Except.error PanicKind.badPort
        | some n => Except.ok ⟨p.pid, n⟩ := by
  unfold get_mongos_info
  simp [hm]

/-- Inversion of a successful `get_mongod_info`: pid, server type and
replica-set name of the produced record. -/
lemma get_mongod_info_ok_inv (p : CommonProcInfo) (info : MongoDServerInfo)
    (h : get_mongod_info p = Except.ok info) :
    info.pid = p.pid ∧ info.server_type = resolve_server_type p.cmdline ∧
      info.replica_set_name = get_cmd_line_option "--replSet" p.cmdline ∧
      is_mongo_process p = some MongoProcess.Mongod := by
  unfold get_mongod_info at h
  split at h
  · exact absurd h (by simp)
  next hm =>
    rw [not_not] at hm
    split at h
    · rw [Except.ok.injEq] at h
      subst h
      exact ⟨rfl, rfl, rfl, hm⟩
    · split at h
      · exact absurd h (by simp)
      · rw [Except.ok.injEq] at h
        subst h
        exact ⟨rfl, rfl, rfl, hm⟩

/-- Inversion of a successful `get_mongos_info`. -/
lemma get_mongos_info_ok_inv (p : CommonProcInfo) (info : MongoSServerInfo)
    (h : get_mongos_info p = Except.ok info) :
    info.pid = p.pid ∧ is_mongo_process p = some MongoProcess.Mongos := by
  unfold get_mongos_info at h
  split at h
  · exact absurd h (by simp)
  next hm =>
    rw [not_not] at hm
    split at h
    · rw [Except.ok.injEq] at h
      subst h
      exact ⟨rfl, hm⟩
    · split at h
      · exact absurd h (by simp)
      · rw [Except.ok.injEq] at h
        subst h
        exact ⟨rfl, hm⟩

/-- When the assert precondition holds, the only panic `get_mongod_info`
can raise is the bad-port one. -/
lemma get_mongod_info_error_badPort (p : CommonProcInfo) (e : PanicKind)
    (hm : is_mongo_process p = some MongoProcess.Mongod)
    (h : get_mongod_info p = Except.error e) : e = PanicKind.badPort := by
  rw [get_mongod_info_of_mongod p hm] at h
  split at h
  · exact absurd h (by simp)
  · split at h
    · rw [Except.error.injEq] at h
      exact h.symm
    · exact absurd h (by simp)

/-- When the assert precondition holds, the only panic `get_mongos_info`
can raise is the bad-port one. -/
lemma get_mongos_info_error_badPort (p : CommonProcInfo) (e : PanicKind)
    (hm : is_mongo_process p = some MongoProcess.Mongos)
    (h : get_mongos_info p = Except.error e) : e = PanicKind.badPort := by
  rw [get_mongos_info_of_mongos p hm] at h
  split at h
  · exact absurd h (by simp)
  · split at h
    · rw [Except.error.injEq] at h
      exact h.symm
    · exact absurd h (by simp)

/-- The classification loop either succeeds or aborts with the bad-port
panic; the assert-failure panic never escapes it. -/
lemma classifyProcs_total (ps : List CommonProcInfo) :
    (∃ c, classifyProcs ps = Except.ok c) ∨
      classifyProcs ps = Except.error PanicKind.badPort := by
  induction ps with
  | nil => exact Or.inl ⟨⟨[], [], []⟩, rfl⟩
  | cons p rest ih =>
    cases him : is_mongo_process p with
    | none => simpa [classifyProcs, him] using ih
    | some mp =>
      cases mp with
      | Legacyshell =>
        rcases ih with ⟨c, hc⟩ | hc
        · exact Or.inl ⟨{ c with shells := p.pid :: c.shells },
            by simp [classifyProcs, him, hc]⟩
        · exact Or.inr (by simp [classifyProcs, him, hc])
      | Mongod =>
        cases hinfo : get_mongod_info p with
        | error e =>
          have he := get_mongod_info_error_badPort p e him hinfo
          subst he
          exact Or.inr (by simp [classifyProcs, him, hinfo])
        | ok info =>
          rcases ih with ⟨c, hc⟩ | hc
          · exact Or.inl ⟨{ c with mongod := info :: c.mongod },
              by simp [classifyProcs, him, hinfo, hc]⟩
          · exact Or.inr (by simp [classifyProcs, him, hinfo, hc])
      | Mongos =>
        cases hinfo : get_mongos_info p with
        | error e =>
          have he := get_mongos_info_error_badPort p e him hinfo
          subst he
          exact Or.inr (by simp [classifyProcs, him, hinfo])
        | ok info =>
          rcases ih with ⟨c, hc⟩ | hc
          · exact Or.inl ⟨{ c with mongos := info :: c.mongos },
              by simp [classifyProcs, him, hinfo, hc]⟩
          · exact Or.inr (by simp [classifyProcs, him, hinfo, hc])

/-- A single record with a malformed port aborts the whole classification
loop with the bad-port panic. -/
lemma classifyProcs_error_of_mem (ps : List CommonProcInfo) (p : CommonProcInfo)
    (hp : p ∈ ps)
    (hbad :
      (is_mongo_process p = some MongoProcess.Mongod ∧
        get_mongod_info p = Except.error PanicKind.badPort) ∨
      (is_mongo_process p = some MongoProcess.Mongos ∧
        get_mongos_info p = Except.error PanicKind.badPort)) :
    classifyProcs ps = Except.error PanicKind.badPort := by
  induction ps with
  | nil => exact absurd hp (List.not_mem_nil p)
  | cons q rest ih =>
    rcases List.mem_cons.mp hp with hq | hq
    · subst hq
      rcases hbad with ⟨him, herr⟩ | ⟨him, herr⟩
      · simp [classifyProcs, him, herr]
      · simp [classifyProcs, him, herr]
    · have hrest := ih hq
      cases himq : is_mongo_process q with
      | none => simpa [classifyProcs, himq] using hrest
      | some mq =>
        cases mq with
        | Legacyshell => simp [classifyProcs, himq, hrest]
        | Mongod =>
          cases hinfo : get_mongod_info q with
          | error e =>
            have he := get_mongod_info_error_badPort q e himq hinfo
            subst he
            simp [classifyProcs, himq, hinfo]
          | ok info => simp [classifyProcs, himq, hinfo, hrest]
        | Mongos =>
          cases hinfo : get_mongos_info q with
          | error e =>
            have he := get_mongos_info_error_badPort q e himq hinfo
            subst he
            simp [classifyProcs, himq, hinfo]
          | ok info => simp [classifyProcs, himq, hinfo, hrest]

/-- The classified server records carry the pids of the `mongod`
processes in discovery order. -/
lemma classifyProcs_mongod_pids (ps : List CommonProcInfo) (c : Classified)
    (h : classifyProcs ps = Except.ok c) :
    c.mongod.map (fun d => d.pid) =
      (ps.filter fun p =>
        decide (is_mongo_process p = some MongoProcess.Mongod)).map
        (fun p => p.pid) := by
  induction ps generalizing c with
  | nil =>
    rw [show classifyProcs [] = Except.ok ⟨[], [], []⟩ from rfl, Except.ok.injEq] at h
    subst h
    rfl
  | cons q rest ih =>
    cases himq : is_mongo_process q with
    | none =>
      rw [show classifyProcs (q :: rest) = classifyProcs rest from by
        simp [classifyProcs, himq]] at h
      simp [List.filter_cons, himq, ih c h]
    | some mq =>
      cases mq with
      | Legacyshell =>
        cases hrest : classifyProcs rest with
        | error e => simp [classifyProcs, himq, hrest] at h
        | ok c' =>
          rw [show classifyProcs (q :: rest) =
              Except.ok { c' with shells := q.pid :: c'.shells } from by
            simp [classifyProcs, himq, hrest], Except.ok.injEq] at h
          subst h
          simp [List.filter_cons, himq, ih c' hrest]
      | Mongod =>
        cases hinfo : get_mongod_info q with
        | error e => simp [classifyProcs, himq, hinfo] at h
        | ok info =>
          cases hrest : classifyProcs rest with
          | error e => simp [classifyProcs, himq, hinfo, hrest] at h
          | ok c' =>
            rw [show classifyProcs (q :: rest) =
                Except.ok { c' with mongod := info :: c'.mongod } from by
              simp [classifyProcs, himq, hinfo, hrest], Except.ok.injEq] at h
            subst h
            have hpid := (get_mongod_info_ok_inv q info hinfo).1
            simp [List.filter_cons, himq, hpid, ih c' hrest]
      | Mongos =>
        cases hinfo : get_mongos_info q with
        | error e => simp [classifyProcs, himq, hinfo] at h
        | ok info =>
          cases hrest : classifyProcs rest with
          | error e => simp [classifyProcs, himq, hinfo, hrest] at h
          | ok c' =>
            rw [show classifyProcs (q :: rest) =
                Except.ok { c' with mongos := info :: c'.mongos } from by
              simp [classifyProcs, himq, hinfo, hrest], Except.ok.injEq] at h
            subst h
            simp [List.filter_cons, himq, ih c' hrest]

/-- The classified router records carry the pids of the `mongos`
processes in discovery order. -/
lemma classifyProcs_mongos_pids (ps : List CommonProcInfo) (c : Classified)
    (h : classifyProcs ps = Except.ok c) :
    c.mongos.map (fun d => d.pid) =
      (ps.filter fun p =>
        decide (is_mongo_process p = some MongoProcess.Mongos)).map
        (fun p => p.pid) := by
  induction ps generalizing c with
  | nil =>
    rw [show classifyProcs [] = Except.ok ⟨[], [], []⟩ from rfl, Except.ok.injEq] at h
    subst h
    rfl
  | cons q rest ih =>
    cases himq : is_mongo_process q with
    | none =>
      rw [show classifyProcs (q :: rest) = classifyProcs rest from by
        simp [classifyProcs, himq]] at h
      simp [List.filter_cons, himq, ih c h]
    | some mq =>
      cases mq with
      | Legacyshell =>
        cases hrest : classifyProcs rest with
        | error e => simp [classifyProcs, himq, hrest] at h
        | ok c' =>
          rw [show classifyProcs (q :: rest) =
              Except.ok { c' with shells := q.pid :: c'.shells } from by
            simp [classifyProcs, himq, hrest], Except.ok.injEq] at h
          subst h
          simp [List.filter_cons, himq, ih c' hrest]
      | Mongod =>
        cases hinfo : get_mongod_info q with
        | error e => simp [classifyProcs, himq, hinfo] at h
        | ok info =>
          cases hrest : classifyProcs rest with
          | error e => simp [classifyProcs, himq, hinfo, hrest] at h
          | ok c' =>
            rw [show classifyProcs (q :: rest) =
                Except.ok { c' with mongod := info :: c'.mongod } from by
              simp [classifyProcs, himq, hinfo, hrest], Except.ok.injEq] at h
            subst h
            simp [List.filter_cons, himq, ih c' hrest]
      | Mongos =>
        cases hinfo : get_mongos_info q with
        | error e => simp [classifyProcs, himq, hinfo] at h
        | ok info =>
          cases hrest : classifyProcs rest with
          | error e => simp [classifyProcs, himq, hinfo, hrest] at h
          | ok c' =>
            rw [show classifyProcs (q :: rest) =
                Except.ok { c' with mongos := info :: c'.mongos } from by
              simp [classifyProcs, himq, hinfo, hrest], Except.ok.injEq] at h
            subst h
            have hpid := (get_mongos_info_ok_inv q info hinfo).1
            simp [List.filter_cons, himq, hpid, ih c' hrest]

/-! ### Claims -/

/-- C1: the command-line option lookup returns absent on the empty list;
the next token's value when a token equals the flag exactly and a next
token exists; absent when the flag token is the last token; the part
after `=` for a `flag=value` token; and absent for a token that merely
has the flag as a proper prefix (`--ports=20000` does not match
`--port`). -/
theorem C1_cmd_line_option_lookup :
    (∀ flag : String, get_cmd_line_option flag [] = none) ∧
    (∀ (flag v : String) (rest : List String),
      get_cmd_line_option flag (flag :: v :: rest) = some v) ∧
    (∀ flag : String, get_cmd_line_option flag [flag] = none) ∧
    get_cmd_line_option "--port" ["--port", "20000"] = some "20000" ∧
    get_cmd_line_option "--port" ["--port"] = none ∧
    get_cmd_line_option "--port" ["--port=20000"] = some "20000" ∧
    get_cmd_line_option "--port" ["--ports=20000"] = none := by
  refine ⟨fun flag => rfl, ?_, ?_, by decide, by decide, by decide, by decide⟩
  · intro flag v rest
    simp [get_cmd_line_option]
  · intro flag
    simp [get_cmd_line_option]

/-- C9 counterexample: the lookup splits on every `=`, not once, so
`--replSet=a=b` looked up with `--replSet` yields absent, not `a=b`. -/
theorem C9_counterexample :
    get_cmd_line_option "--replSet" ["--replSet=a=b"] = none ∧
    get_cmd_line_option "--replSet" ["--replSet=a=b"] ≠ some "a=b" := by decide

/-- C9 amended: a token starting with the flag is split at every `=` and
matches only when that yields exactly two parts whose first equals the
flag; a token whose value itself contains `=` therefore never matches and
scanning continues past it; once a token does match, scanning stops. -/
theorem C9_split_amended :
    (∀ (flag v : String) (r1 r2 : List String),
      get_cmd_line_option flag (flag :: v :: r1) = some v ∧
      get_cmd_line_option flag (flag :: v :: r1) =
        get_cmd_line_option flag (flag :: v :: r2)) ∧
    get_cmd_line_option "--port" ["--port=1", "--port", "2"] = some "1" ∧
    get_cmd_line_option "--replSet" ["--replSet=a=b"] = none ∧
    get_cmd_line_option "--replSet" ["--replSet=a=b", "--replSet=rs0"] = some "rs0" := by
  refine ⟨?_, by decide, by decide, by decide⟩
  intro flag v r1 r2
  constructor <;> simp [get_cmd_line_option]

/-- C2: a classified mongod record's server type follows the fixed
precedence config > shard > replica-set > standalone, and the three
concrete spec examples classify as Standalone (port 20017), ReplicaSet
("rs0") and Config respectively. -/
theorem C2_server_type_precedence :
    (∀ (p : CommonProcInfo) (info : MongoDServerInfo),
      get_mongod_info p = Except.ok info →
      ((get_cmd_line_option "--configsvr" p.cmdline).isSome →
        info.server_type = MongoDType.Config) ∧
      (get_cmd_line_option "--configsvr" p.cmdline = none →
        (get_cmd_line_option "--shardsvr" p.cmdline).isSome →
        info.server_type = MongoDType.Shard) ∧
      (get_cmd_line_option "--configsvr" p.cmdline = none →
        get_cmd_line_option "--shardsvr" p.cmdline = none →
        (get_cmd_line_option "--replSet" p.cmdline).isSome →
        info.server_type = MongoDType.ReplicaSet) ∧
      (get_cmd_line_option "--configsvr" p.cmdline = none →
        get_cmd_line_option "--shardsvr" p.cmdline = none →
        get_cmd_line_option "--replSet" p.cmdline = none →
        info.server_type = MongoDType.Standalone)) ∧
    get_mongod_info ⟨7, "mongod", []⟩ =
      Except.ok ⟨7, 20017, MongoDType.Standalone, none⟩ ∧
    get_mongod_info ⟨7, "mongod", ["--replSet=rs0"]⟩ =
      Except.ok ⟨7, 20017, MongoDType.ReplicaSet, some "rs0"⟩ ∧
    (∃ info, get_mongod_info ⟨7, "mongod", ["--configsvr", "--replSet=rs0"]⟩ =
      Except.ok info ∧ info.server_type = MongoDType.Config) := by
  refine ⟨?_, by decide, by decide,
    ⟨⟨7, 20017, MongoDType.Config, some "rs0"⟩, by decide, rfl⟩⟩
  intro p info h
  have hst := (get_mongod_info_ok_inv p info h).2.1
  unfold resolve_server_type at hst
  refine ⟨?_, ?_, ?_, ?_⟩
  · intro h1
    simpa [h1] using hst
  · intro h1 h2
    simpa [h1, h2] using hst
  · intro h1 h2 h3
    simpa [h1, h2, h3] using hst
  · intro h1 h2 h3
    simpa [h1, h2, h3] using hst

/-- C2 witness: the precedence clause applied to the concrete
config+replSet record. -/
theorem C2_server_type_precedence_witness :
    (⟨7, 20017, MongoDType.Config, some "rs0"⟩ : MongoDServerInfo).server_type =
      MongoDType.Config :=
  (C2_server_type_precedence.1 ⟨7, "mongod", ["--configsvr", "--replSet=rs0"]⟩
    ⟨7, 20017, MongoDType.Config, some "rs0"⟩ (by decide)).1 (by decide)

/-- C7 counterexample: a mongod record with both `--configsvr` and
`--replSet=rs0` classifies as Config yet carries a present
`replica_set_name`, so the name is not present only on ReplicaSet
records. -/
theorem C7_counterexample :
    get_mongod_info ⟨7, "mongod", ["--configsvr", "--replSet=rs0"]⟩ =
      Except.ok ⟨7, 20017, MongoDType.Config, some "rs0"⟩ ∧
    MongoDType.Config ≠ MongoDType.ReplicaSet ∧
    (some "rs0" : Option String).isSome = true := by decide

/-- C7 amended: `replica_set_name` is always the raw `--replSet` lookup
result, independent of the resolved server type; it is present on every
ReplicaSet record and absent on every Standalone record, but may also be
present on Config or Shard records that name a replica set. -/
theorem C7_replica_set_name_amended :
    ∀ (p : CommonProcInfo) (info : MongoDServerInfo),
      get_mongod_info p = Except.ok info →
      info.replica_set_name = get_cmd_line_option "--replSet" p.cmdline ∧
      (info.server_type = MongoDType.ReplicaSet → info.replica_set_name.isSome) ∧
      (info.server_type = MongoDType.Standalone → info.replica_set_name = none) := by
  intro p info h
  obtain ⟨-, hst, hname, -⟩ := get_mongod_info_ok_inv p info h
  unfold resolve_server_type at hst
  refine ⟨hname, ?_, ?_⟩
  · intro hrs
    rw [hst] at hrs
    rw [hname]
    split_ifs at hrs with h1 h2 h3
    exact h3
  · intro hsa
    rw [hst] at hsa
    rw [hname]
    split_ifs at hsa with h1 h2 h3
    simpa using h3

/-- C7 witness: the amended clause applied to the concrete
config+replSet record. -/
theorem C7_replica_set_name_amended_witness :
    (⟨7, 20017, MongoDType.Config, some "rs0"⟩ : MongoDServerInfo).replica_set_name =
      get_cmd_line_option "--replSet" ["--configsvr", "--replSet=rs0"] :=
  (C7_replica_set_name_amended ⟨7, "mongod", ["--configsvr", "--replSet=rs0"]⟩
    ⟨7, 20017, MongoDType.Config, some "rs0"⟩ (by decide)).1

/-- C3: the port of a classified server or router record is the parsed
`--port` value, defaulting to 20017 when the option is absent; an
unparseable value raises the bad-port panic, and through the
classification loop that panic aborts the whole invocation. -/
theorem C3_port_resolution :
    (∀ p : CommonProcInfo, is_mongo_process p = some MongoProcess.Mongod →
      (get_cmd_line_option "--port" p.cmdline = none →
        ∃ info, get_mongod_info p = Except.ok info ∧ info.port = 20017) ∧
      (∀ (s : String) (n : Int), get_cmd_line_option "--port" p.cmdline = some s →
        parseI32 s = some n →
        ∃ info, get_mongod_info p = Except.ok info ∧ info.port = n) ∧
      (∀ s : String, get_cmd_line_option "--port" p.cmdline = some s →
        parseI32 s = none →
        get_mongod_info p = Except.error PanicKind.badPort)) ∧
    (∀ p : CommonProcInfo, is_mongo_process p = some MongoProcess.Mongos →
      (get_cmd_line_option "--port" p.cmdline = none →
        ∃ info, get_mongos_info p = Except.ok info ∧ info.port = 20017) ∧
      (∀ (s : String) (n : Int), get_cmd_line_option "--port" p.cmdline = some s →
        parseI32 s = some n →
        ∃ info, get_mongos_info p = Except.ok info ∧ info.port = n) ∧
      (∀ s : String, get_cmd_line_option "--port" p.cmdline = some s →
        parseI32 s = none →
        get_mongos_info p = Except.error PanicKind.badPort)) ∧
    (∀ (args : Args) (ps : List CommonProcInfo) (p : CommonProcInfo),
      p ∈ ps →
      ¬(args.process_type = some MongoProcess.Legacyshell ∧ args.port.isSome) →
      ((is_mongo_process p = some MongoProcess.Mongod ∧
          get_mongod_info p = Except.error PanicKind.badPort) ∨
        (is_mongo_process p = some MongoProcess.Mongos ∧
          get_mongos_info p = Except.error PanicKind.badPort)) →
      mainModel args (Except.ok ps) = MainOutcome.fatalPanic PanicKind.badPort) := by
  refine ⟨?_, ?_, ?_⟩
  · intro p hm
    rw [get_mongod_info_of_mongod p hm]
    refine ⟨?_, ?_, ?_⟩
    · intro hn
      simp only [hn]
      exact ⟨_, rfl, rfl⟩
    · intro s n hs hparse
      simp only [hs, hparse]
      exact ⟨_, rfl, rfl⟩
    · intro s hs hparse
      simp only [hs, hparse]
  · intro p hm
    rw [get_mongos_info_of_mongos p hm]
    refine ⟨?_, ?_, ?_⟩
    · intro hn
      simp only [hn]
      exact ⟨_, rfl, rfl⟩
    · intro s n hs hparse
      simp only [hs, hparse]
      exact ⟨_, rfl, rfl⟩
    · intro s hs hparse
      simp only [hs, hparse]
  · intro args ps p hp hconflict hbad
    have hcl := classifyProcs_error_of_mem ps p hp hbad
    unfold mainModel
    rw [if_neg hconflict]
    simp [hcl]

/-- C3 witness: default port, parsed port, bad port and whole-run abort
at concrete records. -/
theorem C3_port_resolution_witness :
    (∃ info, get_mongod_info ⟨1, "mongod", []⟩ = Except.ok info ∧
      info.port = 20017) ∧
    (∃ info, get_mongod_info ⟨1, "mongod", ["--port", "99"]⟩ = Except.ok info ∧
      info.port = 99) ∧
    get_mongod_info ⟨1, "mongod", ["--port", "xx"]⟩ =
      Except.error PanicKind.badPort ∧
    (∃ info, get_mongos_info ⟨1, "mongos", ["--port=30000"]⟩ = Except.ok info ∧
      info.port = 30000) ∧
    mainModel ⟨none, none, none, false⟩
        (Except.ok [⟨1, "mongod", ["--port", "xx"]⟩]) =
      MainOutcome.fatalPanic PanicKind.badPort :=
  ⟨(C3_port_resolution.1 ⟨1, "mongod", []⟩ (by decide)).1 (by decide),
    (C3_port_resolution.1 ⟨1, "mongod", ["--port", "99"]⟩ (by decide)).2.1
      "99" 99 (by decide) (by decide),
    (C3_port_resolution.1 ⟨1, "mongod", ["--port", "xx"]⟩ (by decide)).2.2
      "xx" (by decide) (by decide),
    (C3_port_resolution.2.1 ⟨1, "mongos", ["--port=30000"]⟩ (by decide)).2.1
      "30000" 30000 (by decide) (by decide),
    C3_port_resolution.2.2 ⟨none, none, none, false⟩
      [⟨1, "mongod", ["--port", "xx"]⟩] ⟨1, "mongod", ["--port", "xx"]⟩
      (by decide) (by decide) (Or.inl ⟨by decide, by decide⟩)⟩

/-- C4: exactly one filter is honored per invocation, with precedence
port > server type > process role > none; the port filter draws from both
the server and router collections, the server-type filter only from the
server collection, a role filter selects one collection wholesale, and
with no filter the run emits the full summary instead of a pid list. -/
theorem C4_filter_precedence :
    (∀ (args : Args) (c : Classified) (n : Int), args.port = some n →
      runFilter args c =
        some (((c.mongod.filter fun d => decide (d.port = n)).map fun d => d.pid) ++
          ((c.mongos.filter fun d => decide (d.port = n)).map fun d => d.pid))) ∧
    (∀ (args : Args) (c : Classified) (st : MongoDType),
      args.port = none → args.server_type = some st →
      runFilter args c =
        some ((c.mongod.filter fun d => decide (d.server_type = st)).map
          fun d => d.pid)) ∧
    (∀ (args : Args) (c : Classified),
      args.port = none → args.server_type = none →
      args.process_type = some MongoProcess.Legacyshell →
      runFilter args c = some c.shells) ∧
    (∀ (args : Args) (c : Classified),
      args.port = none → args.server_type = none →
      args.process_type = some MongoProcess.Mongod →
      runFilter args c = some (c.mongod.map fun d => d.pid)) ∧
    (∀ (args : Args) (c : Classified),
      args.port = none → args.server_type = none →
      args.process_type = some MongoProcess.Mongos →
      runFilter args c = some (c.mongos.map fun d => d.pid)) ∧
    (∀ (args : Args) (c : Classified),
      args.port = none → args.server_type = none → args.process_type = none →
      runFilter args c = none) ∧
    (∀ (ps : List CommonProcInfo) (c : Classified),
      classifyProcs ps = Except.ok c →
      mainModel ⟨none, none, none, false⟩ (Except.ok ps) =
        MainOutcome.summary c) := by
  refine ⟨?_, ?_, ?_, ?_, ?_, ?_, ?_⟩
  · intro args c n h
    unfold runFilter
    rw [h]
  · intro args c st h1 h2
    unfold runFilter
    rw [h1, h2]
  · intro args c h1 h2 h3
    unfold runFilter
    rw [h1, h2, h3]
  · intro args c h1 h2 h3
    unfold runFilter
    rw [h1, h2, h3]
  · intro args c h1 h2 h3
    unfold runFilter
    rw [h1, h2, h3]
  · intro args c h1 h2 h3
    unfold runFilter
    rw [h1, h2, h3]
  · intro ps c hcl
    unfold mainModel
    simp [hcl, runFilter]

/-- C4 witness: with all three filters supplied at once, the port filter
wins and matches across both collections. -/
theorem C4_filter_precedence_witness :
    runFilter ⟨some MongoProcess.Mongod, some MongoDType.Standalone, some 5, false⟩
        ⟨[⟨1, 5, MongoDType.Standalone, none⟩], [⟨2, 5⟩], [3]⟩ = some [1, 2] := by
  rw [C4_filter_precedence.1
    ⟨some MongoProcess.Mongod, some MongoDType.Standalone, some 5, false⟩
    ⟨[⟨1, 5, MongoDType.Standalone, none⟩], [⟨2, 5⟩], [3]⟩ 5 rfl]
  decide

/-- C5: a legacy-shell role filter together with a port filter is a fatal
usage error with exit code 1, detected before any enumeration work (the
outcome does not depend on the enumeration result). -/
theorem C5_shell_port_conflict :
    ∀ (args : Args) (procs : Except Unit (List CommonProcInfo)),
      args.process_type = some MongoProcess.Legacyshell →
      args.port.isSome →
      mainModel args procs = MainOutcome.exitWithCode 1 ∧
      (∀ procs2, mainModel args procs = mainModel args procs2) := by
  intro args procs h1 h2
  have hc : args.process_type = some MongoProcess.Legacyshell ∧ args.port.isSome :=
    ⟨h1, h2⟩
  constructor
  · unfold mainModel
    rw [if_pos hc]
  · intro procs2
    unfold mainModel
    rw [if_pos hc, if_pos hc]

/-- C5 witness: the conflict outcome at concrete arguments, even when the
enumeration itself would have failed. -/
theorem C5_shell_port_conflict_witness :
    mainModel ⟨some MongoProcess.Legacyshell, none, some 20017, false⟩
        (Except.error ()) = MainOutcome.exitWithCode 1 :=
  (C5_shell_port_conflict ⟨some MongoProcess.Legacyshell, none, some 20017, false⟩
    (Except.error ()) rfl rfl).1

/-- C6 counterexample: a router classified before a server, both on port
27017, yields the pid list [2, 1] — the server's pid first — because the
port filter drains the whole server collection before the router
collection. -/
theorem C6_counterexample :
    classifyProcs [⟨1, "mongos", ["--port", "27017"]⟩,
        ⟨2, "mongod", ["--port", "27017"]⟩] =
      Except.ok ⟨[⟨2, 27017, MongoDType.Standalone, none⟩], [⟨1, 27017⟩], []⟩ ∧
    mainModel ⟨none, none, some 27017, false⟩
        (Except.ok [⟨1, "mongos", ["--port", "27017"]⟩,
          ⟨2, "mongod", ["--port", "27017"]⟩]) =
      MainOutcome.pidList [2, 1] ∧
    MainOutcome.pidList [2, 1] ≠ MainOutcome.pidList [1, 2] := by decide

/-- C6 amended: in filtered mode the output preserves discovery order
within each collection, but under a port filter all matching server
records precede all matching router records regardless of the order in
which the two kinds were discovered. -/
theorem C6_output_order_amended :
    ∀ (ps : List CommonProcInfo) (c : Classified) (n : Int),
      classifyProcs ps = Except.ok c →
      mainModel ⟨none, none, some n, false⟩ (Except.ok ps) =
        MainOutcome.pidList
          (((c.mongod.filter fun d => decide (d.port = n)).map fun d => d.pid) ++
            ((c.mongos.filter fun d => decide (d.port = n)).map fun d => d.pid)) ∧
      c.mongod.map (fun d => d.pid) =
        (ps.filter fun p =>
          decide (is_mongo_process p = some MongoProcess.Mongod)).map
          (fun p => p.pid) ∧
      c.mongos.map (fun d => d.pid) =
        (ps.filter fun p =>
          decide (is_mongo_process p = some MongoProcess.Mongos)).map
          (fun p => p.pid) := by
  intro ps c n hcl
  refine ⟨?_, classifyProcs_mongod_pids ps c hcl, classifyProcs_mongos_pids ps c hcl⟩
  unfold mainModel
  simp [hcl, runFilter]

/-- C6 witness: the amended ordering applied to the concrete
router-before-server snapshot. -/
theorem C6_output_order_amended_witness :
    mainModel ⟨none, none, some 27017, false⟩
        (Except.ok [⟨1, "mongos", ["--port", "27017"]⟩,
          ⟨2, "mongod", ["--port", "27017"]⟩]) =
      MainOutcome.pidList [2, 1] := by
  rw [(C6_output_order_amended
    [⟨1, "mongos", ["--port", "27017"]⟩, ⟨2, "mongod", ["--port", "27017"]⟩]
    ⟨[⟨2, 27017, MongoDType.Standalone, none⟩], [⟨1, 27017⟩], []⟩ 27017 (by decide)).1]
  decide

/-- C8 counterexample: on the macOS side a failure of the initial
`listpids` query does not surface as an error — `get_procs` returns the
empty successful result instead. -/
theorem C8_counterexample :
    macos_get_procs (Except.error ()) (fun _ => none) =
      Except.ok ([] : List CommonProcInfo) ∧
    Except.ok ([] : List CommonProcInfo) ≠
      (Except.error () : Except Unit (List CommonProcInfo)) := by
  exact ⟨rfl, by decide⟩

/-- C8 amended: on Linux a failure of the initial procfs query propagates
as a fatal error while a per-process `cmdline` failure keeps the record
with an empty argument vector; on macOS a failure of the initial pid
listing silently yields the empty successful result while a per-pid
`get_path_info` failure skips just that process. -/
theorem C8_enumeration_amended :
    (∀ e : Unit, linux_get_procs (Except.error e) = Except.error e) ∧
    (∀ (pid : Int) (comm : String) (rest : List LinuxRawProc),
      linux_get_procs (Except.ok (⟨pid, comm, none⟩ :: rest)) =
        (linux_get_procs (Except.ok rest)).map
          (fun l => (⟨pid, comm, []⟩ : CommonProcInfo) :: l)) ∧
    (∀ f : Int → Option PathInfo, macos_get_procs (Except.error ()) f = Except.ok []) ∧
    (∀ (q : Int) (rest : List Int) (f : Int → Option PathInfo), f q = none →
      macos_get_procs (Except.ok (q :: rest)) f =
        macos_get_procs (Except.ok rest) f) := by
  refine ⟨fun e => rfl, ?_, fun f => rfl, ?_⟩
  · intro pid comm rest
    simp [linux_get_procs, Except.map]
  · intro q rest f hq
    simp [macos_get_procs, List.filterMap_cons, hq]

/-- C8 witness: a pid whose path-info query fails is skipped. -/
theorem C8_enumeration_amended_witness :
    macos_get_procs (Except.ok [5]) (fun _ => none) =
      macos_get_procs (Except.ok []) (fun _ => none) :=
  C8_enumeration_amended.2.2.2 5 [] (fun _ => none) rfl

/-- C10: the assert preconditions of `get_mongod_info` and
`get_mongos_info` hold at their call sites in the classification loop —
each is invoked only on records `is_mongo_process` assigned that exact
role — so the assert-failure panic never escapes the loop; the only
reachable panic is the bad-port one. -/
theorem C10_assert_unreachable :
    (∀ p : CommonProcInfo, is_mongo_process p = some MongoProcess.Mongod →
      get_mongod_info p ≠ Except.error PanicKind.assertFailed) ∧
    (∀ p : CommonProcInfo, is_mongo_process p = some MongoProcess.Mongos →
      get_mongos_info p ≠ Except.error PanicKind.assertFailed) ∧
    (∀ ps : List CommonProcInfo,
      (∃ c, classifyProcs ps = Except.ok c) ∨
        classifyProcs ps = Except.error PanicKind.badPort) := by
  refine ⟨?_, ?_, classifyProcs_total⟩
  · intro p hm h
    exact absurd (get_mongod_info_error_badPort p _ hm h) (by decide)
  · intro p hm h
    exact absurd (get_mongos_info_error_badPort p _ hm h) (by decide)

/-- C10 witness: the mongod assert precondition discharged at a concrete
record of the right role. -/
theorem C10_assert_unreachable_witness :
    get_mongod_info ⟨1, "mongod", []⟩ ≠ Except.error PanicKind.assertFailed :=
  C10_assert_unreachable.1 ⟨1, "mongod", []⟩ (by decide)

end Mpf
